import Mathlib

/-!
Shallow embedding of the FIPS-reconciliation and reshape pipeline of the
housing-market-analysis repository (scripts 02_data_cleaning.py,
03_housing_and_population_cleaning.py, 04_fix_fips_codes.py).

Modelling conventions:
* pandas string columns are `String`; nullable cells are `Option`.
* numeric price/rate columns are exact rationals `ℚ`; the IEEE behaviour of
  numpy division by zero is captured structurally by the `PctVal` type:
  nonzero-over-zero gives the positive/negative infinity constructors, while
  `0 / 0` (NaN) is identified with the null value, because pandas represents
  null as NaN (an empty cell in CSV output, a NULL in the SQL sink).
* a pandas DataFrame is a `List` of row structures; claims proved here are
  row-membership or column-value properties, which do not depend on the
  enumeration order of rows.
* Python `dict(zip(ks, vs))` keeps the last value for a duplicated key;
  `pyDict` below reproduces that.
-/

namespace HousingETL

/-- Python `str.zfill(width)`: if the string is already at least `width`
characters it is returned unchanged; otherwise it is left-padded with `'0'`,
after an initial `'+'`/`'-'` sign when present. -/
def pyZfill (width : Nat) (s : String) : String :=
  if width ≤ s.length then s
  else
    let pad := List.replicate (width - s.length) '0'
    match s.data with
    | [] => String.mk pad
    | c :: rest =>
      if c = '+' ∨ c = '-' then String.mk (c :: (pad ++ rest))
      else String.mk (pad ++ c :: rest)

/-- A raw FIPS cell as it reaches `astype(str)`: either a string cell or an
integer cell (the two raw forms the spec's normalization claim covers). -/
inductive RawFips where
  | str (s : String)
  | int (n : Int)
deriving DecidableEq

/-- Python `str(x)` on a raw FIPS cell. -/
def rawFipsToString : RawFips → String
  | .str s => s
  | .int n => toString n

/-- The FIPS normalization used throughout the pipeline
(`02_data_cleaning.py` line 32, `04_fix_fips_codes.py` lines 21 and 34):
`astype(str).str.zfill(5)`. -/
def normalize_fips (r : RawFips) : String :=
  pyZfill 5 (rawFipsToString r)

/-- Python `str.lower()` restricted to ASCII case folding (county names in
the sources are ASCII). -/
def pyLower (s : String) : String :=
  String.mk (s.data.map Char.toLower)

/-- Python `str.strip()`: drop leading and trailing whitespace. -/
def pyStrip (s : String) : String :=
  String.mk (List.rdropWhile Char.isWhitespace
    (s.data.dropWhile Char.isWhitespace))

/-- Python `str.replace('.', '', regex=False)`: remove every period. -/
def pyRemoveDots (s : String) : String :=
  String.mk (s.data.filter (fun c => c ≠ '.'))

/-- County-name normalization used to build the mapping keys
(`04_fix_fips_codes.py` line 64): `str.lower().str.strip()`. -/
def clean_mapping_name (s : String) : String :=
  pyStrip (pyLower s)

/-- County-name normalization on the housing-affordability path
(`04_fix_fips_codes.py` line 91): `str.lower().str.strip()`. -/
def clean_housing_name (s : String) : String :=
  pyStrip (pyLower s)

/-- County-name normalization on the price-trend path
(`04_fix_fips_codes.py` line 106): `str.lower().str.strip()`. -/
def clean_trend_name (s : String) : String :=
  pyStrip (pyLower s)

/-- County-name normalization on the population path
(`04_fix_fips_codes.py` lines 121-124):
`str.replace('.', '', regex=False).str.lower().str.strip()`. -/
def clean_population_name (s : String) : String :=
  pyStrip (pyLower (pyRemoveDots s))

/-! ### Python dict semantics and the county-name-to-FIPS mapping -/

/-- Insert into an association list with Python-dict semantics: an existing
key keeps its position and takes the new value; a fresh key is appended. -/
def dictInsert {α β : Type} [DecidableEq α] :
    List (α × β) → α → β → List (α × β)
  | [], k, v => [(k, v)]
  | (k', v') :: rest, k, v =>
    if k' = k then (k', v) :: rest else (k', v') :: dictInsert rest k v

/-- Python `dict(pairs)`: build a dict by inserting the pairs in order, a
later pair with a duplicated key silently overwriting the earlier value. -/
def pyDict {α β : Type} [DecidableEq α] (ps : List (α × β)) : List (α × β) :=
  ps.foldl (fun d kv => dictInsert d kv.1 kv.2) []

/-- Dict lookup (Python `d.get(k)` / `Series.map(d)`). -/
def dictLookup {α β : Type} [DecidableEq α] (d : List (α × β)) (k : α) :
    Option β :=
  (d.find? (fun kv => kv.1 = k)).map (fun kv => kv.2)

/-- One row of the counties table (County Master Record) as consumed by
`create_county_name_to_fips_mapping`. -/
structure CountyRec where
  fips_code : String
  county_name : String
  state : String
deriving DecidableEq

/-- `create_county_name_to_fips_mapping` (`04_fix_fips_codes.py` lines
63-67): normalize each county name with `str.lower().str.strip()` and build
`dict(zip(clean_names, fips_codes))`. -/
def create_county_name_to_fips_mapping (counties : List CountyRec) :
    List (String × String) :=
  pyDict (counties.map (fun c => (clean_mapping_name c.county_name, c.fips_code)))

/-! ### Attaching FIPS codes to name-keyed long tables -/

/-- One row of the housing-affordability table as it reaches
`add_fips_to_housing_data`: the raw identifying columns the merge keeps. -/
structure NamedRow where
  region_id : Nat
  county_name : String
  year : Nat
deriving DecidableEq

/-- `add_fips_to_housing_data` / `add_fips_to_population_data`
(`04_fix_fips_codes.py` lines 90-99 and 120-132): normalize the raw name,
map it through the FIPS dict, and append the (nullable) result as a new
`fips_code` column; no row is dropped. -/
def add_fips (cleanName : String → String) (rows : List NamedRow)
    (mapping : List (String × String)) : List (NamedRow × Option String) :=
  rows.map (fun r => (r, dictLookup mapping (cleanName r.county_name)))

/-- `mapped_count` (`04_fix_fips_codes.py` line 97): rows whose appended
`fips_code` is non-null. -/
def mappedCount (cleanName : String → String) (rows : List NamedRow)
    (mapping : List (String × String)) : Nat :=
  ((add_fips cleanName rows mapping).filter (fun pr => pr.2.isSome)).length

/-- The match rate printed at `04_fix_fips_codes.py` line 99:
`mapped_count / total_count` (as an exact ratio). -/
def matchRate (cleanName : String → String) (rows : List NamedRow)
    (mapping : List (String × String)) : ℚ :=
  (mappedCount cleanName rows mapping : ℚ) / (rows.length : ℚ)

/-! ### County master creation and the "no aggregate FIPS" filter -/

/-- Python `s.endswith(suffix)`. -/
def pyEndswith (s suffix : String) : Bool :=
  suffix.data.isSuffixOf s.data

/-- One raw row of the unemployment workbook as consumed by
`clean_unemployment_data` (only the columns the counties table keeps). -/
structure RawUnempRow where
  FIPS_Code : Option RawFips
  State : String
  Area_Name : String
  rural_urban_code : Option Int
  urban_influence_code : Option Int
  metro_status : Option Int
deriving DecidableEq

/-- A row of the produced counties table. -/
structure CountyRow where
  fips_code : String
  state : String
  county_name : String
  rural_urban_code : Option Int
  urban_influence_code : Option Int
  metro_status : Option Int
deriving DecidableEq

/-- `clean_unemployment_data`, counties part (`02_data_cleaning.py` lines
29-47): drop rows with a null `FIPS_Code`, normalize the FIPS cell with
`astype(str).str.zfill(5)`, drop rows whose FIPS ends in `"000"`, and keep
the county columns. -/
def clean_unemployment_counties (rows : List RawUnempRow) : List CountyRow :=
  ((rows.filterMap (fun r =>
      r.FIPS_Code.map (fun f =>
        ({ fips_code := normalize_fips f
           state := r.State
           county_name := r.Area_Name
           rural_urban_code := r.rural_urban_code
           urban_influence_code := r.urban_influence_code
           metro_status := r.metro_status } : CountyRow)))).filter
    (fun r => !(pyEndswith r.fips_code "000")))

/-! ### Housing reshape: melt the two wide tier tables and outer-join them
(`03_housing_and_population_cleaning.py`, `reshape_housing_data`) -/

/-- One row of a wide price-tier CSV: the four identifier columns followed
by one (date-header, price) cell per observation date. -/
structure WideRow where
  RegionID : Nat
  RegionName : String
  StateName : String
  State : String
  cells : List (String × Option ℚ)
deriving DecidableEq

/-- One row of a melted (long) tier table. -/
structure MeltedRow where
  RegionID : Nat
  RegionName : String
  StateName : String
  State : String
  date : String
  price : Option ℚ
deriving DecidableEq

/-- `df.melt(id_vars=[...], value_vars=date_cols, ...)`: one long row per
(wide row, date column) pair.  (pandas enumerates column-major; the row
*set* is the same, and the properties proved below are membership
properties.) -/
def melt (rows : List WideRow) : List MeltedRow :=
  rows.flatMap (fun r => r.cells.map (fun cell =>
    ({ RegionID := r.RegionID, RegionName := r.RegionName,
       StateName := r.StateName, State := r.State,
       date := cell.1, price := cell.2 } : MeltedRow)))

/-- One row of the merged monthly housing-price table.  The non-key columns
coming from the bottom-tier side are nullable because an outer merge fills
them with null on right-only rows. -/
structure HousingRow where
  RegionID : Nat
  RegionName : Option String
  StateName : Option String
  State : Option String
  date : String
  bottom_tier_price : Option ℚ
  top_tier_price : Option ℚ
deriving DecidableEq

/-- `bottom_melted.merge(top_melted[...], on=['RegionID','date'],
how='outer')` for key-unique inputs: every left row is kept and picks up the
matching top price (null when absent); right-only rows appear with the
left-side columns null. -/
def outerMerge (left right : List MeltedRow) : List HousingRow :=
  (left.map (fun l =>
    ({ RegionID := l.RegionID, RegionName := some l.RegionName,
       StateName := some l.StateName, State := some l.State,
       date := l.date, bottom_tier_price := l.price,
       top_tier_price :=
         (right.find? (fun r =>
           r.RegionID = l.RegionID ∧ r.date = l.date)).bind
           (fun r => r.price) } : HousingRow))) ++
  ((right.filter (fun r =>
      ¬ left.any (fun l => l.RegionID = r.RegionID ∧ l.date = r.date))).map
    (fun r =>
      ({ RegionID := r.RegionID, RegionName := none, StateName := none,
         State := none, date := r.date, bottom_tier_price := none,
         top_tier_price := r.price } : HousingRow)))

/-- `reshape_housing_data` (`03_housing_and_population_cleaning.py` lines
89-122): melt both wide tier tables, outer-merge on (RegionID, date), and
drop the rows where *both* tier prices are null
(`dropna(subset=[...], how='all')`).  The datetime/year/month columns are
derived from the date string and do not affect the dropped-row set. -/
def reshape_housing_data (bottom top : List WideRow) : List HousingRow :=
  (outerMerge (melt bottom) (melt top)).filter
    (fun r => r.bottom_tier_price.isSome || r.top_tier_price.isSome)

/-! ### Annual aggregation: groupby mean over (RegionID, county_name, year)
shared by `calculate_affordability_metrics` and
`create_annual_price_trends` -/

/-- One monthly housing row as consumed by the annual aggregations (the
grouping keys and the two price columns). -/
structure MonthlyRow where
  RegionID : Nat
  county_name : String
  year : Nat
  bottom_tier_price : Option ℚ
  top_tier_price : Option ℚ
deriving DecidableEq

/-- pandas `mean` aggregation over a nullable column: skip nulls; the mean
of an all-null group is null. -/
def meanOpt (l : List (Option ℚ)) : Option ℚ :=
  let vals := l.filterMap id
  if vals.length = 0 then none
  else some (vals.sum / (vals.length : ℚ))

/-- A grouping key of the annual aggregation. -/
structure GroupKey where
  RegionID : Nat
  county_name : String
  year : Nat
deriving DecidableEq

/-- The grouping key of a monthly row. -/
def MonthlyRow.key (r : MonthlyRow) : GroupKey :=
  ⟨r.RegionID, r.county_name, r.year⟩

/-- The distinct grouping keys of a monthly table (pandas emits groups in
sorted key order; the group *order* is immaterial to the properties proved
below, only the per-group values matter). -/
def groupKeys (rows : List MonthlyRow) : List GroupKey :=
  (rows.map MonthlyRow.key).dedup

/-- One row of the annual groupby-mean output. -/
structure AnnualRow where
  RegionID : Nat
  county_name : String
  year : Nat
  bottom_tier_price : Option ℚ
  top_tier_price : Option ℚ
deriving DecidableEq

/-- `housing_df.groupby(['RegionID','county_name','year']).agg('mean')`
(`03_housing_and_population_cleaning.py` lines 142-145 and 174-177). -/
def annualMeans (rows : List MonthlyRow) : List AnnualRow :=
  (groupKeys rows).map (fun k =>
    let grp := rows.filter (fun r => r.key = k)
    ({ RegionID := k.RegionID, county_name := k.county_name, year := k.year,
       bottom_tier_price := meanOpt (grp.map (fun r => r.bottom_tier_price)),
       top_tier_price := meanOpt (grp.map (fun r => r.top_tier_price)) } :
      AnnualRow))

/-! ### Affordability metrics (`calculate_affordability_metrics`) -/

/-- `price * 0.05 / 0.30` on a nullable price: null propagates
(`03_housing_and_population_cleaning.py` lines 149-153). -/
def minSalary (price : Option ℚ) : Option ℚ :=
  price.map (fun p => p * (5 / 100) / (30 / 100))

/-- One row of the housing-affordability table. -/
structure AffordRow where
  RegionID : Nat
  county_name : String
  year : Nat
  bottom_tier_price : Option ℚ
  top_tier_price : Option ℚ
  bottom_tier_min_salary : Option ℚ
  top_tier_min_salary : Option ℚ
deriving DecidableEq

/-- `calculate_affordability_metrics` (`03_housing_and_population_cleaning.py`
lines 141-153): annual groupby mean of the monthly prices, then
`annual_cost = price * 0.05` and `min_salary = annual_cost / 0.30`. -/
def calculate_affordability_metrics (rows : List MonthlyRow) :
    List AffordRow :=
  (annualMeans rows).map (fun a =>
    ({ RegionID := a.RegionID, county_name := a.county_name, year := a.year,
       bottom_tier_price := a.bottom_tier_price,
       top_tier_price := a.top_tier_price,
       bottom_tier_min_salary := minSalary a.bottom_tier_price,
       top_tier_min_salary := minSalary a.top_tier_price } : AffordRow))

/-! ### Year-over-year growth (`create_annual_price_trends`)

`annual_trends.groupby('RegionID')[col].pct_change() * 100` with the
default `fill_method='pad'`: within each group the price series is
forward-filled, then each element is divided by its predecessor, minus 1.
numpy float division of a nonzero value by zero yields ±infinity, which is
represented structurally; `0 / 0` yields NaN, and NaN is pandas' null (it
is written as an empty CSV cell and becomes a SQL NULL), so it is
identified with the null value of the model. -/

/-- The value of one growth cell: a finite percentage, a null (pandas NaN,
covering both a propagated missing value and a `0 / 0`), or one of the
infinities numpy produces when dividing a nonzero value by zero. -/
inductive PctVal where
  | null
  | val (q : ℚ)
  | posInf
  | negInf
deriving DecidableEq

/-- One step of forward-filling: a non-null cell replaces the carried
value, a null cell keeps it. -/
def fillStep (x prev : Option ℚ) : Option ℚ :=
  match x with
  | some v => some v
  | none => prev

/-- Forward-fill (`fill_method='pad'`), carrying the last non-null value. -/
def ffillAux (last : Option ℚ) : List (Option ℚ) → List (Option ℚ)
  | [] => []
  | x :: xs => fillStep x last :: ffillAux (fillStep x last) xs

/-- Forward-fill a price series. -/
def ffill (l : List (Option ℚ)) : List (Option ℚ) :=
  ffillAux none l

/-- The forward-filled value carried after consuming a prefix of the
series. -/
def fillAcc (prev : Option ℚ) (xs : List (Option ℚ)) : Option ℚ :=
  xs.foldl (fun acc x => fillStep x acc) prev

/-- `(cur / prev - 1) * 100` with numpy/pandas semantics: a null previous
value propagates null; a previous value of 0 yields ±infinity for a nonzero
current value and NaN for `0 / 0` — and NaN is pandas' null, so that case
is null here as well. -/
def pctDiv (cur prev : Option ℚ) : PctVal :=
  match prev with
  | none => .null
  | some p =>
    match cur with
    | none => .null
    | some c =>
      if p = 0 then
        if 0 < c then .posInf else if c < 0 then .negInf else .null
      else .val ((c / p - 1) * 100)

/-- One pass of `pct_change() * 100` over an already forward-filled series,
carrying the previous filled value. -/
def pctAux (prev : Option ℚ) : List (Option ℚ) → List PctVal
  | [] => []
  | x :: xs => pctDiv x prev :: pctAux x xs

/-- `Series.pct_change() * 100` with the default forward-fill. -/
def pctChange100 (l : List (Option ℚ)) : List PctVal :=
  pctAux none (ffill l)

/-- Lexicographic (RegionID, year) order used by
`annual_trends.sort_values(['RegionID','year'])`. -/
def trendLE (a b : AnnualRow) : Prop :=
  a.RegionID < b.RegionID ∨ (a.RegionID = b.RegionID ∧ a.year ≤ b.year)

instance trendLE.decRel : DecidableRel trendLE := fun a b => by
  unfold trendLE; exact inferInstance

/-- `sort_values(['RegionID','year'])` (a deterministic sort on the
lexicographic key; key ties carry the same prices, so the growth columns do
not depend on the tie order). -/
def sortTrend (l : List AnnualRow) : List AnnualRow :=
  List.insertionSort trendLE l

/-- One row of the annual price-trend table. -/
structure TrendRow where
  RegionID : Nat
  county_name : String
  year : Nat
  bottom_tier_price : Option ℚ
  top_tier_price : Option ℚ
  bottom_tier_growth : PctVal
  top_tier_growth : PctVal
deriving DecidableEq

/-- Pair a region's sorted annual rows with the two growth series. -/
def attachGrowth (grp : List AnnualRow) : List TrendRow :=
  (grp.zip ((pctChange100 (grp.map (fun a => a.bottom_tier_price))).zip
            (pctChange100 (grp.map (fun a => a.top_tier_price))))).map
    (fun p =>
      ({ RegionID := p.1.RegionID, county_name := p.1.county_name,
         year := p.1.year, bottom_tier_price := p.1.bottom_tier_price,
         top_tier_price := p.1.top_tier_price,
         bottom_tier_growth := p.2.1, top_tier_growth := p.2.2 } : TrendRow))

/-- `create_annual_price_trends` (`03_housing_and_population_cleaning.py`
lines 173-182): annual groupby mean, sort by (RegionID, year), then
per-RegionID `pct_change() * 100` on both price columns. -/
def create_annual_price_trends (rows : List MonthlyRow) : List TrendRow :=
  let sorted := sortTrend (annualMeans rows)
  ((sorted.map (fun a => a.RegionID)).dedup).flatMap (fun rid =>
    attachGrowth (sorted.filter (fun a => a.RegionID = rid)))

/-- The bottom-tier price column of one region's annual rows, in year
order (the series `pct_change` is applied to). -/
def regionPricesB (rows : List MonthlyRow) (rid : Nat) : List (Option ℚ) :=
  (((sortTrend (annualMeans rows)).filter (fun a => a.RegionID = rid)).map
    (fun a => a.bottom_tier_price))

/-- The bottom-tier growth column of one region's rows, in year order. -/
def regionGrowthB (rows : List MonthlyRow) (rid : Nat) : List PctVal :=
  (((create_annual_price_trends rows).filter
    (fun t => t.RegionID = rid)).map (fun t => t.bottom_tier_growth))

/-! ### Concrete example inputs used to instantiate the general theorems -/

/-- 120 name-keyed rows of which exactly the first 90 match the example
mapping after normalization. -/
def exampleRows120 : List NamedRow :=
  List.replicate 90 ⟨1, "a", 2020⟩ ++ List.replicate 30 ⟨2, "zz", 2020⟩

/-- A mapping covering the name `"a"`. -/
def exampleMapping : List (String × String) :=
  pyDict [("a", "01001")]

end HousingETL

namespace HousingETL

/-! ## Theorems -/

/-- C1: for the raw inputs `"6001"`, `6001` and `"06001"`, `normalize_fips`
returns exactly the 5-character zero-padded string `"06001"`, and it is
idempotent on every already-normalized 5-digit string. -/
theorem C1_normalize_fips_correct :
    normalize_fips (.str "6001") = "06001" ∧
    normalize_fips (.int 6001) = "06001" ∧
    normalize_fips (.str "06001") = "06001" ∧
    (∀ s : String, s.length = 5 → (∀ c ∈ s.data, c.isDigit) →
      normalize_fips (.str s) = s) := by
  refine ⟨by decide, by decide, by decide, fun s h5 _ => ?_⟩
  simp [normalize_fips, rawFipsToString, pyZfill, h5]

/-- Witness for C1 at the already-normalized input `"06001"`. -/
theorem C1_normalize_fips_correct_witness :
    ("06001" : String).length = 5 ∧ (∀ c ∈ ("06001" : String).data, c.isDigit) ∧
      normalize_fips (.str "06001") = "06001" :=
  ⟨by decide, by decide,
    C1_normalize_fips_correct.2.2.2 "06001" (by decide) (by decide)⟩

/-- C10: after the county-level filtering step of `clean_unemployment_data`,
no produced county row has a `fips_code` ending in `"000"`. -/
theorem C10_no_aggregate_fips_rows (rows : List RawUnempRow) (r : CountyRow)
    (hr : r ∈ clean_unemployment_counties rows) :
    pyEndswith r.fips_code "000" = false := by
  unfold clean_unemployment_counties at hr
  simpa using (List.mem_filter.mp hr).2

/-- Witness for C10 on a one-row input whose FIPS normalizes to "06001". -/
theorem C10_no_aggregate_fips_rows_witness :
    ({ fips_code := "06001", state := "CA", county_name := "Alameda County",
       rural_urban_code := none, urban_influence_code := none,
       metro_status := none } : CountyRow) ∈
      clean_unemployment_counties
        [{ FIPS_Code := some (.int 6001), State := "CA",
           Area_Name := "Alameda County", rural_urban_code := none,
           urban_influence_code := none, metro_status := none }] ∧
    pyEndswith ("06001" : String) "000" = false :=
  ⟨by decide,
    C10_no_aggregate_fips_rows
      [{ FIPS_Code := some (.int 6001), State := "CA",
         Area_Name := "Alameda County", rural_urban_code := none,
         urban_influence_code := none, metro_status := none }]
      { fips_code := "06001", state := "CA", county_name := "Alameda County",
        rural_urban_code := none, urban_influence_code := none,
        metro_status := none }
      (by decide)⟩

/-- C2: attaching FIPS codes appends a nullable `fips_code` column and
drops no row (the raw rows are preserved exactly, unmatched ones mapping to
a null FIPS), and 90 matches out of 120 rows give a match rate of exactly
`0.75`. -/
theorem C2_add_fips_row_preserving (cleanName : String → String)
    (rows : List NamedRow) (mapping : List (String × String)) :
    ((add_fips cleanName rows mapping).map Prod.fst = rows) ∧
    (∀ pr ∈ add_fips cleanName rows mapping,
        pr.2 = dictLookup mapping (cleanName pr.1.county_name)) ∧
    (mappedCount cleanName rows mapping = 90 → rows.length = 120 →
        matchRate cleanName rows mapping = 3 / 4) := by
  refine ⟨?_, ?_, ?_⟩
  · rw [add_fips, List.map_map]
    exact List.map_id _
  · intro pr hpr
    simp only [add_fips, List.mem_map] at hpr
    obtain ⟨r, _, rfl⟩ := hpr
    rfl
  · intro h90 h120
    unfold matchRate
    rw [h90, h120]
    norm_num

/-- Witness for C2: 120 concrete rows of which exactly 90 match. -/
theorem C2_add_fips_row_preserving_witness :
    mappedCount clean_housing_name exampleRows120 exampleMapping = 90 ∧
    exampleRows120.length = 120 ∧
    matchRate clean_housing_name exampleRows120 exampleMapping = 3 / 4 :=
  ⟨by decide, by decide,
    (C2_add_fips_row_preserving clean_housing_name exampleRows120
      exampleMapping).2.2 (by decide) (by decide)⟩

/-! ### Python dict lemmas (last value wins for a duplicated key) -/

theorem dictLookup_cons {α β : Type} [DecidableEq α]
    (k₀ : α) (v₀ : β) (d : List (α × β)) (k' : α) :
    dictLookup ((k₀, v₀) :: d) k' =
      if k₀ = k' then some v₀ else dictLookup d k' := by
  by_cases h : k₀ = k' <;> simp [dictLookup, h]

theorem dictLookup_dictInsert {α β : Type} [DecidableEq α]
    (d : List (α × β)) (k k' : α) (v : β) :
    dictLookup (dictInsert d k v) k' =
      if k = k' then some v else dictLookup d k' := by
  induction d with
  | nil =>
    by_cases h : k = k' <;> simp [dictInsert, dictLookup, h]
  | cons hd tl ih =>
    obtain ⟨k₀, v₀⟩ := hd
    by_cases h₀ : k₀ = k
    · subst h₀
      by_cases h' : k₀ = k'
      · subst h'
        simp [dictInsert, dictLookup]
      · simp [dictInsert, dictLookup, h']
    · simp only [dictInsert, if_neg h₀]
      rw [dictLookup_cons, dictLookup_cons, ih]
      by_cases h' : k₀ = k'
      · subst h'
        have hkk : ¬ k = k₀ := fun he => h₀ he.symm
        simp [hkk]
      · simp [h']

theorem dictLookup_foldl_dictInsert {α β : Type} [DecidableEq α]
    (ps : List (α × β)) (d : List (α × β)) (k : α) :
    dictLookup (ps.foldl (fun acc kv => dictInsert acc kv.1 kv.2) d) k =
      match ps.reverse.find? (fun kv => kv.1 = k) with
      | some kv => some kv.2
      | none => dictLookup d k := by
  induction ps generalizing d with
  | nil => simp
  | cons a ps ih =>
    simp only [List.foldl_cons, List.reverse_cons, List.find?_append]
    rw [ih]
    cases hfind : ps.reverse.find? (fun kv => kv.1 = k) with
    | some kv => simp [hfind]
    | none =>
      simp only [hfind, Option.none_or]
      by_cases ha : a.1 = k
      · simp [ha, dictLookup_dictInsert]
      · simp [ha, dictLookup_dictInsert]

theorem dictLookup_pyDict {α β : Type} [DecidableEq α]
    (ps : List (α × β)) (k : α) :
    dictLookup (pyDict ps) k =
      (ps.reverse.find? (fun kv => kv.1 = k)).map Prod.snd := by
  rw [pyDict, dictLookup_foldl_dictInsert]
  cases hfind : ps.reverse.find? (fun kv => kv.1 = k) <;>
    simp [hfind, dictLookup]

/-- C5 counterexample: two counties with distinct FIPS codes whose names
normalize to the same string produce a one-entry mapping that silently
keeps only the later FIPS code; no collision is reported or raised. -/
theorem C5_collision_counterexample :
    create_county_name_to_fips_mapping
        [⟨"06001", "Alameda County", "CA"⟩, ⟨"06002", "ALAMEDA COUNTY ", "CA"⟩] =
      [("alameda county", "06002")] ∧
    clean_mapping_name "Alameda County" = clean_mapping_name "ALAMEDA COUNTY " ∧
    ("06001" : String) ≠ "06002" ∧
    ("06001" : String) ∉
      (create_county_name_to_fips_mapping
        [⟨"06001", "Alameda County", "CA"⟩,
         ⟨"06002", "ALAMEDA COUNTY ", "CA"⟩]).map Prod.snd := by
  refine ⟨by decide, by decide, by decide, by decide⟩

/-- C5 amended: `create_county_name_to_fips_mapping` does not detect name
collisions; the mapping silently resolves a duplicated normalized name to
the FIPS code of the last county row carrying it. -/
theorem C5_mapping_last_seen_wins (counties : List CountyRec) (k : String) :
    dictLookup (create_county_name_to_fips_mapping counties) k =
      (counties.reverse.find?
        (fun c => clean_mapping_name c.county_name = k)).map
        (fun c => c.fips_code) := by
  rw [create_county_name_to_fips_mapping, dictLookup_pyDict, ← List.map_reverse,
    List.find?_map, Option.map_map]
  rfl

/-! ### Character-level lemmas for the county-name normalizers -/

theorem toLower_isUpper_false (c : Char) : (Char.toLower c).isUpper = false := by
  rw [Char.toLower]
  split
  · next h =>
    obtain ⟨h1, h2⟩ := h
    interval_cases h : c.toNat <;> decide
  · next h =>
    rw [Char.isUpper]
    simp only [Bool.and_eq_false_imp, decide_eq_true_eq]
    intro hge
    by_contra hle
    simp only [Bool.not_eq_false, decide_eq_true_eq] at hle
    exact h ⟨hge, hle⟩

theorem toLower_ne_dot (c : Char) (hc : c ≠ '.') : Char.toLower c ≠ '.' := by
  rw [Char.toLower]
  split
  · next h =>
    obtain ⟨h1, h2⟩ := h
    interval_cases hn : c.toNat <;> decide
  · next _ => exact hc

theorem dropWhile_eq_self_of_prefix {α : Type} (p : α → Bool) {x y : List α}
    (hpre : y <+: x) (hx : x.dropWhile p = x) : y.dropWhile p = y := by
  cases y with
  | nil => simp
  | cons c t =>
    obtain ⟨r, hr⟩ := hpre
    have hpc : p c = false := by
      by_contra hpc
      simp only [Bool.not_eq_false] at hpc
      rw [← hr] at hx
      simp only [List.cons_append] at hx
      rw [List.dropWhile_cons_of_pos hpc] at hx
      have hlen := congrArg List.length hx
      have hle := (List.dropWhile_suffix p (l := t ++ r)).length_le
      rw [List.length_cons] at hlen
      omega
    rw [List.dropWhile_cons_of_neg (by simp [hpc])]

/-- Characters of a stripped string come from the unstripped string. -/
theorem mem_pyStrip_data {c : Char} {s : String}
    (hc : c ∈ (pyStrip s).data) : c ∈ s.data := by
  have h1 : (pyStrip s).data =
      List.rdropWhile Char.isWhitespace
        (s.data.dropWhile Char.isWhitespace) := rfl
  rw [h1] at hc
  exact (List.dropWhile_suffix Char.isWhitespace).subset
    ((List.rdropWhile_prefix _ _).subset hc)

/-- The result of `pyStrip` has no leading whitespace. -/
theorem pyStrip_no_leading (s : String) :
    (pyStrip s).data.dropWhile Char.isWhitespace = (pyStrip s).data := by
  have h1 : (pyStrip s).data =
      List.rdropWhile Char.isWhitespace
        (s.data.dropWhile Char.isWhitespace) := rfl
  rw [h1]
  exact dropWhile_eq_self_of_prefix _ (List.rdropWhile_prefix _ _)
    (List.dropWhile_idempotent _ _)

/-- The result of `pyStrip` has no trailing whitespace. -/
theorem pyStrip_no_trailing (s : String) :
    List.rdropWhile Char.isWhitespace (pyStrip s).data = (pyStrip s).data := by
  have h1 : (pyStrip s).data =
      List.rdropWhile Char.isWhitespace
        (s.data.dropWhile Char.isWhitespace) := rfl
  rw [h1]
  exact List.rdropWhile_idempotent _ _

/-- C9 counterexample: the mapping-key normalization path
(`str.lower().str.strip()`, also used for the housing-affordability and
price-trend names) does not strip periods: `"St. Louis County"` keeps its
period. -/
theorem C9_mapping_path_keeps_period :
    clean_mapping_name "St. Louis County" = "st. louis county" ∧
    ('.' ∈ (clean_mapping_name "St. Louis County").data) := by
  exact ⟨by decide, by decide⟩

/-- C9 amended: every normalization path lowercases and strips whitespace,
but only the population path removes periods (before case-folding); the
mapping, housing-affordability and price-trend paths retain them. -/
theorem C9_normalization_paths :
    (∀ s : String,
      (clean_population_name s).data.all (fun c => !(c = '.')) = true) ∧
    (∀ s : String, clean_housing_name s = clean_mapping_name s) ∧
    (∀ s : String, clean_trend_name s = clean_mapping_name s) ∧
    (∀ s : String,
      (clean_mapping_name s).data.all (fun c => !c.isUpper) = true) ∧
    (∀ s : String,
      (clean_population_name s).data.all (fun c => !c.isUpper) = true) ∧
    (∀ s : String,
      (clean_mapping_name s).data.dropWhile Char.isWhitespace =
        (clean_mapping_name s).data) ∧
    (∀ s : String,
      List.rdropWhile Char.isWhitespace (clean_mapping_name s).data =
        (clean_mapping_name s).data) ∧
    (∀ s : String,
      (clean_population_name s).data.dropWhile Char.isWhitespace =
        (clean_population_name s).data) ∧
    (∀ s : String,
      List.rdropWhile Char.isWhitespace (clean_population_name s).data =
        (clean_population_name s).data) := by
  refine ⟨?_, fun _ => rfl, fun _ => rfl, ?_, ?_, ?_, ?_, ?_, ?_⟩
  · intro s
    rw [List.all_eq_true]
    intro c hc
    have hc' : c ∈ (pyLower (pyRemoveDots s)).data :=
      mem_pyStrip_data hc
    simp only [pyLower, List.mem_map] at hc'
    obtain ⟨c₀, hc₀, rfl⟩ := hc'
    simp only [pyRemoveDots, List.mem_filter] at hc₀
    have h₀ : c₀ ≠ '.' := by simpa using hc₀.2
    simpa using toLower_ne_dot c₀ h₀
  · intro s
    rw [List.all_eq_true]
    intro c hc
    have hc' : c ∈ (pyLower s).data := mem_pyStrip_data hc
    simp only [pyLower, List.mem_map] at hc'
    obtain ⟨c₀, _, rfl⟩ := hc'
    simp [toLower_isUpper_false]
  · intro s
    rw [List.all_eq_true]
    intro c hc
    have hc' : c ∈ (pyLower (pyRemoveDots s)).data := mem_pyStrip_data hc
    simp only [pyLower, List.mem_map] at hc'
    obtain ⟨c₀, _, rfl⟩ := hc'
    simp [toLower_isUpper_false]
  · intro s
    exact pyStrip_no_leading _
  · intro s
    exact pyStrip_no_trailing _
  · intro s
    exact pyStrip_no_leading _
  · intro s
    exact pyStrip_no_trailing _

/-! ### Affordability metrics: C4 and C7 -/

set_option maxRecDepth 100000 in
/-- C4 counterexample: a region-year whose only monthly bottom price is `0`
gets the annual mean `0` and the fabricated zero salary `some 0`, not a
null. -/
theorem C4_zero_price_counterexample :
    calculate_affordability_metrics [⟨1, "a", 2020, some 0, none⟩] =
      [⟨1, "a", 2020, some 0, none, some 0, none⟩] ∧
    (some (0 : ℚ) ≠ (none : Option ℚ)) := by
  refine ⟨by with_unfolding_all rfl, by simp⟩

/-- C4 amended: a `min_salary` field is null exactly when the corresponding
annual mean price is null (missing); an annual mean price of zero yields a
zero salary, not a null. -/
theorem C4_min_salary_null_iff (rows : List MonthlyRow) (r : AffordRow)
    (hr : r ∈ calculate_affordability_metrics rows) :
    (r.bottom_tier_min_salary = none ↔ r.bottom_tier_price = none) ∧
    (r.top_tier_min_salary = none ↔ r.top_tier_price = none) ∧
    (r.bottom_tier_price = some 0 → r.bottom_tier_min_salary = some 0) ∧
    (r.top_tier_price = some 0 → r.top_tier_min_salary = some 0) := by
  simp only [calculate_affordability_metrics, List.mem_map] at hr
  obtain ⟨a, _, rfl⟩ := hr
  dsimp only
  refine ⟨by simp [minSalary], by simp [minSalary], ?_, ?_⟩
  · intro h
    simp only [h, minSalary, Option.map_some']
    norm_num
  · intro h
    simp only [h, minSalary, Option.map_some']
    norm_num

set_option maxRecDepth 100000 in
/-- Witness for C4 amended, on the one-month zero-price input. -/
theorem C4_min_salary_null_iff_witness :
    ((⟨1, "a", 2020, some 0, none, some 0, none⟩ : AffordRow) ∈
        calculate_affordability_metrics [⟨1, "a", 2020, some 0, none⟩]) ∧
    ((some (0 : ℚ) = none ↔ (some (0 : ℚ) : Option ℚ) = none) ∧
      ((none : Option ℚ) = none ↔ (none : Option ℚ) = none) ∧
      (some (0 : ℚ) = some 0 → some (0 : ℚ) = some 0) ∧
      ((none : Option ℚ) = some 0 → (none : Option ℚ) = some 0)) := by
  have he : calculate_affordability_metrics [⟨1, "a", 2020, some 0, none⟩] =
      [⟨1, "a", 2020, some 0, none, some 0, none⟩] := by
    with_unfolding_all rfl
  have hm : (⟨1, "a", 2020, some 0, none, some 0, none⟩ : AffordRow) ∈
      calculate_affordability_metrics [⟨1, "a", 2020, some 0, none⟩] := by
    rw [he]
    exact List.mem_singleton_self _
  exact ⟨hm, C4_min_salary_null_iff _ _ hm⟩

/-- C7: every affordability row carries the annual mean of its group's
monthly prices and `min_salary = price * 0.05 / 0.30` on that mean; a mean
price of `300000` yields `min_salary = 50000` exactly. -/
theorem C7_affordability_formula (rows : List MonthlyRow) (r : AffordRow)
    (hr : r ∈ calculate_affordability_metrics rows) :
    (r.bottom_tier_min_salary =
        r.bottom_tier_price.map (fun p => p * (5 / 100) / (30 / 100))) ∧
    (r.top_tier_min_salary =
        r.top_tier_price.map (fun p => p * (5 / 100) / (30 / 100))) ∧
    (r.bottom_tier_price =
        meanOpt ((rows.filter (fun m =>
          m.key = (⟨r.RegionID, r.county_name, r.year⟩ : GroupKey))).map
            (fun m => m.bottom_tier_price))) ∧
    (r.top_tier_price =
        meanOpt ((rows.filter (fun m =>
          m.key = (⟨r.RegionID, r.county_name, r.year⟩ : GroupKey))).map
            (fun m => m.top_tier_price))) ∧
    (r.bottom_tier_price = some 300000 →
        r.bottom_tier_min_salary = some 50000) := by
  simp only [calculate_affordability_metrics, annualMeans, List.mem_map] at hr
  obtain ⟨a, ha, rfl⟩ := hr
  obtain ⟨k, _, rfl⟩ := ha
  dsimp only
  refine ⟨rfl, rfl, rfl, rfl, ?_⟩
  intro h
  simp only [minSalary, h, Option.map_some']
  norm_num

set_option maxRecDepth 100000 in
/-- Witness for C7: two monthly prices 200000 and 400000 average to 300000
and give a minimum salary of exactly 50000. -/
theorem C7_affordability_formula_witness :
    ((⟨1, "a", 2021, some 300000, none, some 50000, none⟩ : AffordRow) ∈
        calculate_affordability_metrics
          [⟨1, "a", 2021, some 200000, none⟩,
           ⟨1, "a", 2021, some 400000, none⟩]) ∧
    (some (50000 : ℚ) = some 50000) := by
  have he : calculate_affordability_metrics
      [⟨1, "a", 2021, some 200000, none⟩, ⟨1, "a", 2021, some 400000, none⟩] =
      [⟨1, "a", 2021, some 300000, none, some 50000, none⟩] := by
    with_unfolding_all rfl
  have hm : (⟨1, "a", 2021, some 300000, none, some 50000, none⟩ : AffordRow) ∈
      calculate_affordability_metrics
        [⟨1, "a", 2021, some 200000, none⟩, ⟨1, "a", 2021, some 400000, none⟩] := by
    rw [he]
    exact List.mem_singleton_self _
  exact ⟨hm, (C7_affordability_formula _ _ hm).2.2.2.2 rfl⟩

/-! ### Housing reshape and outer join: C8 -/

/-- C8: a (region, date) melted from the bottom-tier table with a non-null
price and absent from the top-tier table survives the outer merge as a row
with the bottom price set and a null top price; and a merged row is dropped
only when both tier prices are null. -/
theorem C8_outer_join_preserves (bottom top : List WideRow) :
    (∀ (rid : Nat) (d : String) (p : ℚ),
      (∃ m ∈ melt bottom, m.RegionID = rid ∧ m.date = d ∧ m.price = some p) →
      (∀ m ∈ melt top, m.RegionID = rid → m.date ≠ d) →
      ∃ hr ∈ reshape_housing_data bottom top,
        hr.RegionID = rid ∧ hr.date = d ∧
        hr.bottom_tier_price = some p ∧ hr.top_tier_price = none) ∧
    (∀ m ∈ outerMerge (melt bottom) (melt top),
      m ∉ reshape_housing_data bottom top →
      m.bottom_tier_price = none ∧ m.top_tier_price = none) := by
  constructor
  · rintro rid d p ⟨m, hm, hrid, hd, hp⟩ hnot
    have hfind : (melt top).find?
        (fun r => r.RegionID = m.RegionID ∧ r.date = m.date) = none := by
      rw [List.find?_eq_none]
      intro x hx hcontra
      simp only [decide_eq_true_eq] at hcontra
      exact hnot x hx (by rw [hcontra.1, hrid]) (by rw [hcontra.2, hd])
    refine ⟨{ RegionID := m.RegionID, RegionName := some m.RegionName,
              StateName := some m.StateName, State := some m.State,
              date := m.date, bottom_tier_price := m.price,
              top_tier_price := ((melt top).find? (fun r =>
                r.RegionID = m.RegionID ∧ r.date = m.date)).bind
                  (fun r => r.price) }, ?_, hrid, hd, hp, by rw [hfind]; rfl⟩
    rw [reshape_housing_data, List.mem_filter]
    constructor
    · rw [outerMerge, List.mem_append]
      exact Or.inl (List.mem_map.mpr ⟨m, hm, rfl⟩)
    · simp [hp]
  · intro m hm hnotin
    have hpred :
        (m.bottom_tier_price.isSome || m.top_tier_price.isSome) = false := by
      by_contra hb
      simp only [Bool.not_eq_false] at hb
      exact hnotin (List.mem_filter.mpr ⟨hm, hb⟩)
    rcases Bool.or_eq_false_iff.mp hpred with ⟨h1, h2⟩
    exact ⟨Option.not_isSome_iff_eq_none.mp (by simp [h1]),
           Option.not_isSome_iff_eq_none.mp (by simp [h2])⟩

set_option maxRecDepth 100000 in
/-- Witness for C8: one bottom-only (region, date) with price 5 survives
with a null top price. -/
theorem C8_outer_join_preserves_witness :
    (∃ m ∈ melt [⟨10, "A", "CA", "CA", [("2020-01-31", some 5)]⟩],
        m.RegionID = 10 ∧ m.date = "2020-01-31" ∧ m.price = some 5) ∧
    (∀ m ∈ melt [⟨10, "A", "CA", "CA", [("2020-02-29", some 7)]⟩],
        m.RegionID = 10 → m.date ≠ "2020-01-31") ∧
    (∃ hr ∈ reshape_housing_data
        [⟨10, "A", "CA", "CA", [("2020-01-31", some 5)]⟩]
        [⟨10, "A", "CA", "CA", [("2020-02-29", some 7)]⟩],
      hr.RegionID = 10 ∧ hr.date = "2020-01-31" ∧
      hr.bottom_tier_price = some 5 ∧ hr.top_tier_price = none) := by
  have h1 : ∃ m ∈ melt [⟨10, "A", "CA", "CA", [("2020-01-31", some 5)]⟩],
      m.RegionID = 10 ∧ m.date = "2020-01-31" ∧ m.price = some 5 := by
    with_unfolding_all decide
  have h2 : ∀ m ∈ melt [⟨10, "A", "CA", "CA", [("2020-02-29", some 7)]⟩],
      m.RegionID = 10 → m.date ≠ "2020-01-31" := by
    with_unfolding_all decide
  exact ⟨h1, h2,
    (C8_outer_join_preserves
      [⟨10, "A", "CA", "CA", [("2020-01-31", some 5)]⟩]
      [⟨10, "A", "CA", "CA", [("2020-02-29", some 7)]⟩]).1
      10 "2020-01-31" 5 h1 h2⟩

/-! ### Growth computation: structural lemmas about `pct_change` -/

theorem ffillAux_cons (last x : Option ℚ) (xs : List (Option ℚ)) :
    ffillAux last (x :: xs) = fillStep x last :: ffillAux (fillStep x last) xs :=
  rfl

theorem pctAux_cons (prev y : Option ℚ) (ys : List (Option ℚ)) :
    pctAux prev (y :: ys) = pctDiv y prev :: pctAux y ys :=
  rfl

theorem pctDiv_none (cur : Option ℚ) : pctDiv cur none = .null :=
  rfl

theorem fillStep_eq_none_iff (x prev : Option ℚ) :
    fillStep x prev = none ↔ x = none ∧ prev = none := by
  cases x <;> simp [fillStep]

theorem ffillAux_length (l : List (Option ℚ)) :
    ∀ last : Option ℚ, (ffillAux last l).length = l.length := by
  induction l with
  | nil => intro last; rfl
  | cons x xs ih =>
    intro last
    rw [ffillAux_cons, List.length_cons, List.length_cons, ih]

theorem pctAux_length (l : List (Option ℚ)) :
    ∀ prev : Option ℚ, (pctAux prev l).length = l.length := by
  induction l with
  | nil => intro prev; rfl
  | cons y ys ih =>
    intro prev
    rw [pctAux_cons, List.length_cons, List.length_cons, ih]

theorem pctChange100_length (l : List (Option ℚ)) :
    (pctChange100 l).length = l.length := by
  rw [pctChange100, ffill, pctAux_length, ffillAux_length]

/-- Pointwise evaluation of `pct_change`: the growth cell at index `i` is
the division step applied to the forward-filled current value and the
forward-filled previous value carried over the first `i` cells. -/
theorem pctAux_ffill_getElem (l : List (Option ℚ)) :
    ∀ (prev : Option ℚ) (i : Nat) (x : Option ℚ), l[i]? = some x →
      (pctAux prev (ffillAux prev l))[i]? =
        some (pctDiv (fillStep x (fillAcc prev (l.take i)))
          (fillAcc prev (l.take i))) := by
  induction l with
  | nil => intro prev i x hx; simp at hx
  | cons y ys ih =>
    intro prev i x hx
    rw [ffillAux_cons, pctAux_cons]
    cases i with
    | zero =>
      rw [List.getElem?_cons_zero, Option.some_inj] at hx
      subst hx
      rw [List.take_zero, List.getElem?_cons_zero]
      rfl
    | succ j =>
      rw [List.getElem?_cons_succ] at hx
      rw [List.getElem?_cons_succ, ih (fillStep y prev) j x hx,
        List.take_succ_cons]
      rfl

/-- The forward-filled carry is null exactly when the initial carry is null
and every consumed cell is null. -/
theorem fillAcc_eq_none_iff (xs : List (Option ℚ)) :
    ∀ prev : Option ℚ,
      fillAcc prev xs = none ↔ (prev = none ∧ ∀ x ∈ xs, x = none) := by
  induction xs with
  | nil => intro prev; simp [fillAcc]
  | cons y ys ih =>
    intro prev
    have hstep : fillAcc prev (y :: ys) = fillAcc (fillStep y prev) ys := rfl
    rw [hstep, ih (fillStep y prev)]
    constructor
    · rintro ⟨hfs, hall⟩
      obtain ⟨hy, hprev⟩ := (fillStep_eq_none_iff y prev).mp hfs
      refine ⟨hprev, fun x hx => ?_⟩
      rcases List.mem_cons.mp hx with rfl | hx'
      · exact hy
      · exact hall x hx'
    · rintro ⟨hprev, hall⟩
      exact ⟨(fillStep_eq_none_iff y prev).mpr
          ⟨hall y (List.mem_cons_self y ys), hprev⟩,
        fun x hx => hall x (List.mem_cons_of_mem _ hx)⟩

/-- The division step is null exactly when the forward-filled previous
value is null, or it is `0` and the current cell is `0` or null (so that
the filled current value is also `0`, giving NaN = pandas null). -/
theorem pctDiv_fillStep_null_iff (x pf : Option ℚ) :
    pctDiv (fillStep x pf) pf = .null ↔
      (pf = none ∨ (pf = some 0 ∧ (x = some 0 ∨ x = none))) := by
  cases pf with
  | none => simp [pctDiv_none]
  | some p =>
    cases x with
    | none =>
      by_cases hp : p = 0
      · subst hp
        constructor
        · intro _
          exact Or.inr ⟨rfl, Or.inr rfl⟩
        · intro _
          norm_num [fillStep, pctDiv]
      · constructor
        · intro h
          exfalso
          dsimp only [fillStep, pctDiv] at h
          rw [if_neg hp] at h
          exact PctVal.noConfusion h
        · rintro (h | ⟨h0, -⟩)
          · exact absurd h (by simp)
          · exact absurd (Option.some_inj.mp h0) hp
    | some c =>
      by_cases hp : p = 0
      · subst hp
        constructor
        · intro h
          dsimp only [fillStep, pctDiv] at h
          rw [if_pos rfl] at h
          by_cases hcpos : 0 < c
          · rw [if_pos hcpos] at h
            exact absurd h (by simp)
          · rw [if_neg hcpos] at h
            by_cases hcneg : c < 0
            · rw [if_pos hcneg] at h
              exact absurd h (by simp)
            · have hc0 : c = 0 :=
                le_antisymm (not_lt.mp hcpos) (not_lt.mp hcneg)
              exact Or.inr ⟨rfl, Or.inl (by rw [hc0])⟩
        · rintro (h | ⟨-, hx⟩)
          · exact absurd h (by simp)
          · rcases hx with hx | hx
            · have hc0 : c = 0 := Option.some_inj.mp hx
              subst hc0
              norm_num [fillStep, pctDiv]
            · exact absurd hx (by simp)
      · constructor
        · intro h
          dsimp only [fillStep, pctDiv] at h
          rw [if_neg hp] at h
          exact PctVal.noConfusion h
        · rintro (h | ⟨h0, -⟩)
          · exact absurd h (by simp)
          · exact absurd (Option.some_inj.mp h0) hp

/-! ### Per-region growth columns of `create_annual_price_trends` -/

theorem attachGrowth_growthB (grp : List AnnualRow) :
    (attachGrowth grp).map (fun t => t.bottom_tier_growth) =
      pctChange100 (grp.map (fun a => a.bottom_tier_price)) := by
  have hpb : (pctChange100 (grp.map (fun a => a.bottom_tier_price))).length =
      grp.length := by
    rw [pctChange100_length, List.length_map]
  have hpt : (pctChange100 (grp.map (fun a => a.top_tier_price))).length =
      grp.length := by
    rw [pctChange100_length, List.length_map]
  have hzip : ((pctChange100 (grp.map (fun a => a.bottom_tier_price))).zip
      (pctChange100 (grp.map (fun a => a.top_tier_price)))).length =
        grp.length := by
    rw [List.length_zip, hpb, hpt, Nat.min_self]
  unfold attachGrowth
  rw [List.map_map]
  show List.map (Prod.fst ∘ Prod.snd) _ = _
  rw [← List.map_map, List.map_snd_zip _ _ hzip.le,
    List.map_fst_zip _ _ (hpb.trans hpt.symm).le]

theorem attachGrowth_regionID {grp : List AnnualRow} {rid : Nat}
    (hgrp : ∀ a ∈ grp, a.RegionID = rid) :
    ∀ t ∈ attachGrowth grp, t.RegionID = rid := by
  intro t ht
  unfold attachGrowth at ht
  rw [List.mem_map] at ht
  obtain ⟨p, hp, rfl⟩ := ht
  exact hgrp p.1 (List.of_mem_zip hp).1

theorem flatMap_single_of_nodup {α β : Type} (rs : List α) (F : α → List β)
    (rid : α) (hn : rs.Nodup) (hmem : rid ∈ rs)
    (hnil : ∀ r ∈ rs, r ≠ rid → F r = []) :
    rs.flatMap F = F rid := by
  induction rs with
  | nil => cases hmem
  | cons a t ih =>
    rw [List.flatMap_cons]
    rcases List.mem_cons.mp hmem with rfl | hm
    · have ht : t.flatMap F = [] := by
        rw [List.flatMap_eq_nil_iff]
        intro x hx
        exact hnil x (List.mem_cons_of_mem _ hx)
          (fun he => (List.nodup_cons.mp hn).1 (he ▸ hx))
      rw [ht, List.append_nil]
    · have ha : F a = [] :=
        hnil a (List.mem_cons_self a t)
          (fun he => (List.nodup_cons.mp hn).1 (he ▸ hm))
      rw [ha, List.nil_append]
      exact ih (List.nodup_cons.mp hn).2 hm
        (fun r hr hne => hnil r (List.mem_cons_of_mem _ hr) hne)

/-- The bottom-tier growth column of a region equals `pct_change * 100`
applied to that region's year-ordered annual mean prices. -/
theorem regionGrowthB_eq (rows : List MonthlyRow) (rid : Nat) :
    regionGrowthB rows rid = pctChange100 (regionPricesB rows rid) := by
  unfold regionGrowthB create_annual_price_trends regionPricesB
  rw [List.filter_flatMap]
  by_cases hmem :
      rid ∈ ((sortTrend (annualMeans rows)).map (fun a => a.RegionID)).dedup
  · rw [flatMap_single_of_nodup _ _ rid (List.nodup_dedup _) hmem ?hnil]
    case hnil =>
      intro r _ hne
      rw [List.filter_eq_nil_iff]
      intro t ht
      have hr : t.RegionID = r :=
        attachGrowth_regionID
          (fun a ha => by simpa using (List.mem_filter.mp ha).2) t ht
      simp [hr, hne]
    have hself :
        ((attachGrowth ((sortTrend (annualMeans rows)).filter
            (fun a => a.RegionID = rid))).filter
          (fun t => t.RegionID = rid)) =
        attachGrowth ((sortTrend (annualMeans rows)).filter
            (fun a => a.RegionID = rid)) := by
      rw [List.filter_eq_self]
      intro t ht
      have hr : t.RegionID = rid :=
        attachGrowth_regionID
          (fun a ha => by simpa using (List.mem_filter.mp ha).2) t ht
      simp [hr]
    rw [hself, attachGrowth_growthB]
  · have hnone : ∀ r ∈ ((sortTrend (annualMeans rows)).map
        (fun a => a.RegionID)).dedup,
        ((attachGrowth ((sortTrend (annualMeans rows)).filter
            (fun a => a.RegionID = r))).filter
          (fun t => t.RegionID = rid)) = [] := by
      intro r hr
      rw [List.filter_eq_nil_iff]
      intro t ht
      have htr : t.RegionID = r :=
        attachGrowth_regionID
          (fun a ha => by simpa using (List.mem_filter.mp ha).2) t ht
      have hrne : r ≠ rid := fun he => hmem (he ▸ hr)
      simp [htr, hrne]
    rw [List.flatMap_eq_nil_iff.mpr hnone]
    have hfil : (sortTrend (annualMeans rows)).filter
        (fun a => a.RegionID = rid) = [] := by
      rw [List.filter_eq_nil_iff]
      intro a ha
      have : rid ∉ (sortTrend (annualMeans rows)).map (fun a => a.RegionID) :=
        fun h => hmem (List.mem_dedup.mpr h)
      intro he
      simp only [decide_eq_true_eq] at he
      exact this (List.mem_map.mpr ⟨a, ha, he⟩)
    rw [hfil]
    rfl

theorem pctChange100_head_null (x : Option ℚ) (xs : List (Option ℚ)) :
    (pctChange100 (x :: xs)).head? = some .null := by
  rw [pctChange100, ffill, ffillAux_cons, pctAux_cons, pctDiv_none]
  rfl

set_option maxRecDepth 100000 in
/-- C6: the growth computation groups by region, orders by year, and emits
`(current - previous) / previous * 100` per row with a null for the first
year of each region; annual mean prices `[100, 110, 99]` for one region
across three consecutive years give growth `[null, 10.0, -10.0]`. -/
theorem C6_growth_rates :
    ((create_annual_price_trends
        [⟨1, "a", 2000, some 100, some 100⟩, ⟨1, "a", 2001, some 110, some 110⟩,
         ⟨1, "a", 2002, some 99, some 99⟩]).map
        (fun t => (t.RegionID, t.year, t.bottom_tier_growth)) =
      [(1, 2000, .null), (1, 2001, .val 10), (1, 2002, .val (-10))]) ∧
    (∀ (rows : List MonthlyRow) (rid : Nat),
        regionGrowthB rows rid = pctChange100 (regionPricesB rows rid)) ∧
    (∀ (rows : List MonthlyRow) (rid : Nat),
        regionGrowthB rows rid = [] ∨
          (regionGrowthB rows rid).head? = some .null) := by
  refine ⟨by with_unfolding_all rfl, regionGrowthB_eq, ?_⟩
  intro rows rid
  rw [regionGrowthB_eq]
  cases h : regionPricesB rows rid with
  | nil => exact Or.inl rfl
  | cons x xs => exact Or.inr (pctChange100_head_null x xs)

set_option maxRecDepth 100000 in
set_option maxRecDepth 100000 in
/-- C3 counterexample, refuting both branches of the claim: for a region
with prices `[0, 110]` the second-year growth is positive infinity, not
null, although the preceding price is 0; and for a region with prices
`[100, null, 99]` the third-year growth is the finite value `-1` (computed
against the forward-filled price 100), not null, although the immediately
preceding price is null. -/
theorem C3_zero_previous_counterexample :
    (regionGrowthB
        [⟨1, "a", 2000, some 0, some 0⟩, ⟨1, "a", 2001, some 110, some 110⟩]
        1 =
      [.null, .posInf]) ∧
    PctVal.posInf ≠ PctVal.null ∧
    (regionGrowthB
        [⟨2, "b", 2000, some 100, some 100⟩, ⟨2, "b", 2001, none, none⟩,
         ⟨2, "b", 2002, some 99, some 99⟩]
        2 =
      [.null, .val 0, .val (-1)]) ∧
    PctVal.val (-1) ≠ PctVal.null := by
  exact ⟨by with_unfolding_all rfl, by decide,
    by with_unfolding_all rfl, by decide⟩

/-- C3 amended: the growth computation never raises an error; a null
previous-year price is forward-filled with the region's most recent
earlier non-null price, and the emitted growth is null exactly when no
non-null price precedes the year in the region's year-ordered series, or
when the forward-filled previous price is 0 and the current price is 0 or
null (0/0 is NaN, which is pandas' null); a forward-filled previous price
of 0 with a positive current price yields positive infinity, and a nonzero
forward-filled previous price `p` with current price `c` yields the finite
value `(c / p - 1) * 100`. -/
theorem C3_growth_divide_by_zero :
    (∀ (rows : List MonthlyRow) (rid : Nat),
        regionGrowthB rows rid = pctChange100 (regionPricesB rows rid)) ∧
    (∀ (l : List (Option ℚ)) (i : Nat) (x : Option ℚ), l[i]? = some x →
        ((pctChange100 l)[i]? = some .null ↔
          (fillAcc none (l.take i) = none ∨
            (fillAcc none (l.take i) = some 0 ∧
              (x = some 0 ∨ x = none))))) ∧
    (∀ (l : List (Option ℚ)) (i : Nat),
        (fillAcc none (l.take i) = none ↔ ∀ x ∈ l.take i, x = none)) ∧
    (∀ (l : List (Option ℚ)) (i : Nat) (c : ℚ),
        l[i]? = some (some c) → fillAcc none (l.take i) = some 0 → 0 < c →
        (pctChange100 l)[i]? = some .posInf) ∧
    (∀ (l : List (Option ℚ)) (i : Nat) (p c : ℚ),
        l[i]? = some (some c) → fillAcc none (l.take i) = some p → p ≠ 0 →
        (pctChange100 l)[i]? = some (.val ((c / p - 1) * 100))) := by
  refine ⟨regionGrowthB_eq, ?_, ?_, ?_, ?_⟩
  · intro l i x hx
    rw [pctChange100, ffill, pctAux_ffill_getElem l none i x hx,
      Option.some_inj]
    exact pctDiv_fillStep_null_iff x (fillAcc none (l.take i))
  · intro l i
    rw [fillAcc_eq_none_iff]
    simp
  · intro l i c hc h0 hcpos
    rw [pctChange100, ffill, pctAux_ffill_getElem l none i (some c) hc, h0]
    dsimp only [fillStep, pctDiv]
    rw [if_pos rfl, if_pos hcpos]
  · intro l i p c hc h0 hp
    rw [pctChange100, ffill, pctAux_ffill_getElem l none i (some c) hc, h0]
    dsimp only [fillStep, pctDiv]
    rw [if_neg hp]

set_option maxRecDepth 100000 in
/-- Witness for C3 amended: at `[0, 110]` the second cell is positive
infinity; at `[0, 0]` the second cell is null by the 0/0 branch of the
biconditional; at `[100, null, 99]` the third cell is the finite growth
against the forward-filled previous price 100. -/
theorem C3_growth_divide_by_zero_witness :
    (([some (0 : ℚ), some 110] : List (Option ℚ))[1]? = some (some 110)) ∧
    (fillAcc none (([some (0 : ℚ), some 110] : List (Option ℚ)).take 1) =
      some 0) ∧
    ((0 : ℚ) < 110) ∧
    ((pctChange100 [some (0 : ℚ), some 110])[1]? = some .posInf) ∧
    (([some (0 : ℚ), some 0] : List (Option ℚ))[1]? = some (some 0)) ∧
    ((pctChange100 [some (0 : ℚ), some 0])[1]? = some .null ↔
      (fillAcc none (([some (0 : ℚ), some 0] : List (Option ℚ)).take 1) =
          none ∨
        (fillAcc none (([some (0 : ℚ), some 0] : List (Option ℚ)).take 1) =
            some 0 ∧
          ((some (0 : ℚ) : Option ℚ) = some 0 ∨
            (some (0 : ℚ) : Option ℚ) = none)))) ∧
    (([some (100 : ℚ), none, some 99] : List (Option ℚ))[2]? =
      some (some 99)) ∧
    (fillAcc none (([some (100 : ℚ), none, some 99] : List (Option ℚ)).take 2)
      = some 100) ∧
    ((100 : ℚ) ≠ 0) ∧
    ((pctChange100 [some (100 : ℚ), none, some 99])[2]? =
      some (.val ((99 / 100 - 1) * 100))) := by
  have h1 : ([some (0 : ℚ), some 110] : List (Option ℚ))[1]? =
      some (some 110) := by with_unfolding_all rfl
  have h2 : fillAcc none
      (([some (0 : ℚ), some 110] : List (Option ℚ)).take 1) = some 0 := by
    with_unfolding_all rfl
  have h3 : (0 : ℚ) < 110 := by norm_num
  have h4 : ([some (0 : ℚ), some 0] : List (Option ℚ))[1]? =
      some (some 0) := by with_unfolding_all rfl
  have h5 : ([some (100 : ℚ), none, some 99] : List (Option ℚ))[2]? =
      some (some 99) := by with_unfolding_all rfl
  have h6 : fillAcc none
      (([some (100 : ℚ), none, some 99] : List (Option ℚ)).take 2) =
      some 100 := by with_unfolding_all rfl
  have h7 : (100 : ℚ) ≠ 0 := by norm_num
  exact ⟨h1, h2, h3,
    C3_growth_divide_by_zero.2.2.2.1 [some (0 : ℚ), some 110] 1 110 h1 h2 h3,
    h4,
    C3_growth_divide_by_zero.2.1 [some (0 : ℚ), some 0] 1 (some 0) h4,
    h5, h6, h7,
    C3_growth_divide_by_zero.2.2.2.2 [some (100 : ℚ), none, some 99] 2 100 99
      h5 h6 h7⟩

end HousingETL
